import Mathlib

/-!
# Verification of the rate-limiter configuration resolution engine

A shallow embedding, in Lean 4, of the Go package `ratelimiter`
(file holding `setConfiguration` and its helpers).  The process
environment is made an explicit parameter (`Env`, an association list of
variable names to values); Go's `panic` during resolution is modelled by
`Except.error`, a normal return by `Except.ok`.  Pointer-valued fields
(`*RateLimiterRateConfig`, the nilable map, the interface-typed adapter
and response-writer fields) are modelled with `Option`.  Go maps are
modelled as association lists whose update (`mapInsert`) replaces the
value of an existing key in place and otherwise appends; for the
duplicate-free lists a Go map always is, this is exactly the Go map
update.  The debug trace lines emitted by `DebugPrintfWithoutKey` are
output-only and are not modelled; the `Debug` flag itself is.
-/

namespace RateLimiter

/-- Environment snapshot: the list of `NAME=value` pairs of the process. -/
abbrev Env := List (String × String)

/-- `os.LookupEnv`: the value of the first entry named `key`, if any. -/
def getEnv : Env → String → Option String
  | [], _ => none
  | p :: rest, key => if p.1 = key then some p.2 else getEnv rest key

/-- Modelled from the spec (§4.2 Environment Reader; the reader functions
`getBoolEnv`/`getInt64Env`/`getStringEnv` are not among the examined
source files): boolean lookup recognizes case-insensitive truthy/falsy
literals; absence or unrecognized text reports not-present. -/
def parseBoolLit (s : String) : Option Bool :=
  let l := String.mk (s.data.map Char.toLower)
  if l = "1" ∨ l = "t" ∨ l = "true" then some true
  else if l = "0" ∨ l = "f" ∨ l = "false" then some false
  else none

/-- Modelled from the spec (§4.2): `getBoolEnv` returns `(value, ok)`;
`none` models `ok = false`. -/
def getBoolEnv (env : Env) (key : String) : Option Bool :=
  (getEnv env key).bind parseBoolLit

/-- One base-10 digit run; `none` on empty or non-digit input. -/
def parseDigits (cs : List Char) : Option Nat :=
  match cs with
  | [] => none
  | _ =>
    cs.foldl
      (fun acc c =>
        acc.bind (fun n => if c.isDigit then some (n * 10 + (c.toNat - 48)) else none))
      (some 0)

/-- Modelled from the spec (§4.2): integer lookup parses the string as a
base-10 signed integer; malformed text reports not-present.  (The spec
does not constrain the range, so the model uses unbounded `Int`; the
examined core only stores and copies these values.) -/
def parseIntLit (s : String) : Option Int :=
  match s.data with
  | '+' :: rest => (parseDigits rest).map (fun n => (n : Int))
  | '-' :: rest => (parseDigits rest).map (fun n => -(n : Int))
  | l => (parseDigits l).map (fun n => (n : Int))

/-- Modelled from the spec (§4.2): `getInt64Env` as `(value, ok)`. -/
def getInt64Env (env : Env) (key : String) : Option Int :=
  (getEnv env key).bind parseIntLit

/-- Modelled from the spec (§4.2): string lookup; empty-vs-absent is not
distinguished beyond presence of the variable itself. -/
def getStringEnv (env : Env) (key : String) : Option String :=
  getEnv env key

def envKeyIPMaxRequestsPerSecond : String := "RATE_LIMITER_IP_MAX_REQUESTS"
def envKeyIPBlockTimeMilliseconds : String := "RATE_LIMITER_IP_BLOCK_TIME"
def envKeyTokenMaxRequestsPerSecond : String := "RATE_LIMITER_TOKEN_MAX_REQUESTS"
def envKeyTokenBlockTimeMilliseconds : String := "RATE_LIMITER_TOKEN_BLOCK_TIME"
def envKeyDebug : String := "RATE_LIMITER_DEBUG"
def envUseRedis : String := "RATE_LIMITER_USE_REDIS"
def envRedisAddress : String := "RATE_LIMITER_REDIS_ADDRESS"
def envRedisPassword : String := "RATE_LIMITER_REDIS_PASSWORD"
def envRedisDB : String := "RATE_LIMITER_REDIS_DB"

/-- `RateLimiterRateConfig` (Go struct, two `int64` fields). -/
structure RateLimiterRateConfig where
  MaxRequestsPerSecond : Int
  BlockTimeMilliseconds : Int
deriving DecidableEq, Repr

/-- The storage adapter interface value: the default in-memory adapter,
a Redis adapter built from `(address, password, db)`, or an opaque
caller-supplied custom adapter (tagged by a number). -/
inductive StorageAdapterValue where
  | memory : StorageAdapterValue
  | redis (address password : String) (db : Int) : StorageAdapterValue
  | custom (id : Nat) : StorageAdapterValue
deriving DecidableEq, Repr

/-- The response-writer interface value: the default writer or an opaque
caller-supplied custom writer. -/
inductive ResponseWriterValue where
  | defaultWriter : ResponseWriterValue
  | custom (id : Nat) : ResponseWriterValue
deriving DecidableEq, Repr

/-- `RateLimiterConfig` (Go struct).  Pointer fields are `Option`s; the
`CustomTokens` map is an association list whose values are themselves
`Option` (a Go map from string to a nilable pointer). -/
structure RateLimiterConfig where
  IP : Option RateLimiterRateConfig
  Token : Option RateLimiterRateConfig
  CustomTokens : Option (List (String × Option RateLimiterRateConfig))
  StorageAdapter : Option StorageAdapterValue
  ResponseWriter : Option ResponseWriterValue
  Debug : Bool
  DisableEnvs : Bool
deriving DecidableEq, Repr

/-- Go map read `m[k]`: the value of the first entry with key `k`. -/
def mapLookup : List (String × Option RateLimiterRateConfig) → String →
    Option (Option RateLimiterRateConfig)
  | [], _ => none
  | p :: rest, k => if p.1 = k then some p.2 else mapLookup rest k

/-- Go map write `m[k] = v`: replace the entry of an existing key,
otherwise append a new entry. -/
def mapInsert (m : List (String × Option RateLimiterRateConfig)) (k : String)
    (v : Option RateLimiterRateConfig) : List (String × Option RateLimiterRateConfig) :=
  match m with
  | [] => [(k, v)]
  | p :: rest => if p.1 = k then (k, v) :: rest else p :: mapInsert rest k v

/-- `GetRateLimiterRateConfigForToken` (method on `*RateLimiterConfig`):
returns `(entry, true)` when the token is a key of the custom-token map,
else `(c.Token, false)`.  `none` models the nil-map-pointer dereference
panic, impossible on a resolved configuration. -/
def GetRateLimiterRateConfigForToken (c : RateLimiterConfig) (token : String) :
    Option (Option RateLimiterRateConfig × Bool) :=
  match c.CustomTokens with
  | none => none
  | some m =>
    match mapLookup m token with
    | some customTokenConfig => some (customTokenConfig, true)
    | none => some (c.Token, false)

/-- `getDefaultConfiguration`: the compiled-in baseline. -/
def getDefaultConfiguration : RateLimiterConfig :=
  { IP := some { MaxRequestsPerSecond := 100, BlockTimeMilliseconds := 1000 }
    Token := some { MaxRequestsPerSecond := 200, BlockTimeMilliseconds := 500 }
    CustomTokens := some []
    StorageAdapter := some .memory
    ResponseWriter := some .defaultWriter
    Debug := false
    DisableEnvs := false }

/-- The per-field environment override applied to an IP/Token policy by
`configureIP`/`configureToken`: each of the two variables, when present
and parseable, overwrites its field. -/
def envOverrideRate (env : Env) (keyMax keyBlock : String)
    (p : RateLimiterRateConfig) : RateLimiterRateConfig :=
  let p :=
    match getInt64Env env keyMax with
    | some mrps => { p with MaxRequestsPerSecond := mrps }
    | none => p
  match getInt64Env env keyBlock with
  | some bt => { p with BlockTimeMilliseconds := bt }
  | none => p

/-- `configureIP`: substitute the default when the caller field is nil,
then apply environment overrides unless `DisableEnvs`. -/
def configureIP (env : Env) (config defaultConfiguration : RateLimiterConfig) :
    RateLimiterConfig :=
  let ip := if config.IP = none then defaultConfiguration.IP else config.IP
  let ip :=
    if config.DisableEnvs then ip
    else ip.map (envOverrideRate env envKeyIPMaxRequestsPerSecond envKeyIPBlockTimeMilliseconds)
  { config with IP := ip }

/-- `configureToken`: same shape as `configureIP`, on the Token field. -/
def configureToken (env : Env) (config defaultConfiguration : RateLimiterConfig) :
    RateLimiterConfig :=
  let token := if config.Token = none then defaultConfiguration.Token else config.Token
  let token :=
    if config.DisableEnvs then token
    else token.map (envOverrideRate env envKeyTokenMaxRequestsPerSecond envKeyTokenBlockTimeMilliseconds)
  { config with Token := token }

/-- Strip a literal leading run of characters; `some rest` iff the input
is the run followed by `rest`. -/
def dropLit : List Char → List Char → Option (List Char)
  | [], l => some l
  | _ :: _, [] => none
  | p :: ps, c :: cs => if c = p then dropLit ps cs else none

/-- Strip a literal trailing run of characters. -/
def dropLitEnd (l sfx : List Char) : Option (List Char) :=
  (dropLit sfx.reverse l.reverse).map List.reverse

/-- The submatch extraction of `getCustomTokenList`'s regular expression
`^RATE_LIMITER_TOKEN_(.*)_(MAX_REQUESTS|BLOCK_TIME)$` with its greedy
`(.*)` group: a name matches exactly when it is the literal head
followed by anything followed by one of the two literal tails, and the
group then is everything between head and tail (the decomposition is
unique because the two tails end in different characters). -/
def extractTokenId (name : String) : Option String :=
  match dropLit "RATE_LIMITER_TOKEN_".data name.data with
  | none => none
  | some rest =>
    match dropLitEnd rest "_MAX_REQUESTS".data with
    | some mid => some (String.mk mid)
    | none =>
      match dropLitEnd rest "_BLOCK_TIME".data with
      | some mid => some (String.mk mid)
      | none => none

/-- `getCustomTokenList`: scan every environment entry, collect the set
of distinct extracted identifiers (the Go code stores them in a map;
iteration order of that map is unspecified and downstream resolution is
per-identifier, so a first-occurrence-ordered duplicate-free list is a
faithful model). -/
def getCustomTokenList (env : Env) : List String :=
  (env.filterMap (fun p => extractTokenId p.1)).dedup

/-- The policy value `configureCustomToken` computes for one identifier:
each numeric field from its environment variable when present and
parseable, else from the already-resolved Token policy.  (Go would
nil-panic were `Token` nil, which cannot happen at the call site; the
`getD` default is that dead branch.) -/
def customTokenValue (env : Env) (tokenPolicy : Option RateLimiterRateConfig)
    (customToken : String) : RateLimiterRateConfig :=
  let fallback := tokenPolicy.getD { MaxRequestsPerSecond := 0, BlockTimeMilliseconds := 0 }
  { MaxRequestsPerSecond :=
      (getInt64Env env ("RATE_LIMITER_TOKEN_" ++ customToken ++ "_MAX_REQUESTS")).getD
        fallback.MaxRequestsPerSecond
    BlockTimeMilliseconds :=
      (getInt64Env env ("RATE_LIMITER_TOKEN_" ++ customToken ++ "_BLOCK_TIME")).getD
        fallback.BlockTimeMilliseconds }

/-- `configureCustomToken`: store the resolved policy for one discovered
identifier into the custom-token map.  Note the source reads the two
environment variables unconditionally: `DisableEnvs` is not consulted. -/
def configureCustomToken (env : Env) (config defaultConfiguration : RateLimiterConfig)
    (customToken : String) : RateLimiterConfig :=
  { config with
    CustomTokens :=
      config.CustomTokens.map
        (fun m => mapInsert m customToken (some (customTokenValue env config.Token customToken))) }

/-- The first loop of `configureCustomTokens`: every entry whose value is
nil is replaced by the (already-resolved) Token policy. -/
def completeNilCustomTokens (tokenPolicy : Option RateLimiterRateConfig)
    (m : List (String × Option RateLimiterRateConfig)) :
    List (String × Option RateLimiterRateConfig) :=
  m.map (fun p => if p.2 = none then (p.1, tokenPolicy) else p)

/-- `configureCustomTokens`: default-substitute the map, complete nil
entries from the resolved Token policy, then configure every identifier
discovered in the environment.  The discovery loop is not guarded by
`DisableEnvs` in the source. -/
def configureCustomTokens (env : Env) (config defaultConfiguration : RateLimiterConfig) :
    RateLimiterConfig :=
  let config :=
    { config with
      CustomTokens :=
        if config.CustomTokens = none then defaultConfiguration.CustomTokens
        else config.CustomTokens }
  let config :=
    { config with CustomTokens := config.CustomTokens.map (completeNilCustomTokens config.Token) }
  (getCustomTokenList env).foldl (fun c t => configureCustomToken env c defaultConfiguration t) config

/-- `configureRedisStorageAdapter`: address is mandatory (its absence is
a `panic`, modelled as `Except.error`); password defaults to empty,
database index to 0. -/
def configureRedisStorageAdapter (env : Env) (config : RateLimiterConfig) :
    Except String RateLimiterConfig :=
  match getStringEnv env envRedisAddress with
  | none =>
    .error (envRedisAddress ++ " env is required when using redis adapter with env configuration")
  | some redisAddress =>
    let redisPassword := (getStringEnv env envRedisPassword).getD ""
    let redisDB := (getInt64Env env envRedisDB).getD 0
    .ok { config with StorageAdapter := some (.redis redisAddress redisPassword redisDB) }

/-- `configureStorageAdapter`: default-substitute a nil adapter, then —
unconditionally, `DisableEnvs` is not consulted in the source — switch to
the Redis adapter when the use-redis variable is present and true.  The
comparison against the default instance in the source only selects a
debug message. -/
def configureStorageAdapter (env : Env) (config defaultConfiguration : RateLimiterConfig) :
    Except String RateLimiterConfig :=
  let config :=
    { config with
      StorageAdapter :=
        if config.StorageAdapter = none then defaultConfiguration.StorageAdapter
        else config.StorageAdapter }
  match getBoolEnv env envUseRedis with
  | some true => configureRedisStorageAdapter env config
  | _ => .ok config

/-- `configureResponseWriter`: default-substitute a nil writer; the
identity comparison in the source only selects a debug message. -/
def configureResponseWriter (config defaultConfiguration : RateLimiterConfig) :
    RateLimiterConfig :=
  { config with
    ResponseWriter :=
      if config.ResponseWriter = none then defaultConfiguration.ResponseWriter
      else config.ResponseWriter }

/-- The debug-flag block at the top of `setConfiguration` (split out as
its own definition for the proofs below): the env override is applied
unless `DisableEnvs`. -/
def resolveDebug (env : Env) (config : RateLimiterConfig) : RateLimiterConfig :=
  { config with
    Debug :=
      if config.DisableEnvs then config.Debug
      else
        match getBoolEnv env envKeyDebug with
        | some debug => debug
        | none => config.Debug }

/-- `setConfiguration`: the resolution entry point.  A nil caller
configuration is replaced by the default one; the debug flag is resolved
first (env override unless `DisableEnvs`), then IP, Token, custom
tokens, storage adapter (the only fallible step) and response writer. -/
def setConfiguration (config : Option RateLimiterConfig) (env : Env) :
    Except String RateLimiterConfig :=
  let defaultConfiguration := getDefaultConfiguration
  let config := config.getD defaultConfiguration
  let config := resolveDebug env config
  let config := configureIP env config defaultConfiguration
  let config := configureToken env config defaultConfiguration
  let config := configureCustomTokens env config defaultConfiguration
  match configureStorageAdapter env config defaultConfiguration with
  | .error e => .error e
  | .ok config => .ok (configureResponseWriter config defaultConfiguration)

/-! ## Basic lemmas about the environment and map model -/

instance {ε α : Type} [DecidableEq ε] [DecidableEq α] : DecidableEq (Except ε α) :=
  fun x y =>
    match x, y with
    | .error a, .error b =>
      if h : a = b then .isTrue (by rw [h]) else .isFalse (by simp [h])
    | .ok a, .ok b =>
      if h : a = b then .isTrue (by rw [h]) else .isFalse (by simp [h])
    | .error _, .ok _ => .isFalse (by simp)
    | .ok _, .error _ => .isFalse (by simp)

theorem getEnv_eq_none_iff (env : Env) (key : String) :
    getEnv env key = none ↔ ∀ p ∈ env, p.1 ≠ key := by
  induction env with
  | nil => simp [getEnv]
  | cons p rest ih =>
    by_cases h : p.1 = key <;> simp [getEnv, h, ih]

theorem mem_of_getEnv_eq_some {env : Env} {key v : String} (h : getEnv env key = some v) :
    (key, v) ∈ env := by
  induction env with
  | nil => simp [getEnv] at h
  | cons p rest ih =>
    by_cases hp : p.1 = key
    · simp [getEnv, hp] at h
      have hpv : p = (key, v) := by
        obtain ⟨p1, p2⟩ := p
        simp_all
      rw [← hpv]
      exact List.mem_cons_self _ _
    · simp [getEnv, hp] at h
      exact List.mem_cons_of_mem _ (ih h)

theorem mapLookup_mapInsert (m : List (String × Option RateLimiterRateConfig))
    (k k' : String) (v : Option RateLimiterRateConfig) :
    mapLookup (mapInsert m k v) k' = if k' = k then some v else mapLookup m k' := by
  induction m with
  | nil =>
    by_cases h : k' = k
    · simp [mapInsert, mapLookup, h]
    · simp [mapInsert, mapLookup, h, Ne.symm h]
  | cons p rest ih =>
    by_cases hp : p.1 = k
    · by_cases h : k' = k
      · simp [mapInsert, mapLookup, hp, h]
      · have hpk : p.1 ≠ k' := by rw [hp]; exact Ne.symm h
        simp [mapInsert, mapLookup, hp, h, Ne.symm h, hpk]
    · by_cases hpk : p.1 = k'
      · have h : k' ≠ k := by rw [← hpk]; exact hp
        simp [mapInsert, mapLookup, hp, hpk, h]
      · simp [mapInsert, mapLookup, hp, hpk, ih]

theorem mapInsert_of_mapLookup_eq (m : List (String × Option RateLimiterRateConfig))
    (k : String) (v : Option RateLimiterRateConfig) (h : mapLookup m k = some v) :
    mapInsert m k v = m := by
  induction m with
  | nil => simp [mapLookup] at h
  | cons p rest ih =>
    by_cases hp : p.1 = k
    · simp only [mapLookup, if_pos hp, Option.some.injEq] at h
      obtain ⟨p1, p2⟩ := p
      simp_all [mapInsert]
    · simp only [mapLookup, if_neg hp] at h
      simp [mapInsert, hp, ih h]

theorem mem_mapInsert {m : List (String × Option RateLimiterRateConfig)}
    {k : String} {v : Option RateLimiterRateConfig} {p : String × Option RateLimiterRateConfig}
    (h : p ∈ mapInsert m k v) : p ∈ m ∨ p = (k, v) := by
  induction m with
  | nil => simp [mapInsert] at h; simp [h]
  | cons q rest ih =>
    by_cases hq : q.1 = k
    · simp [mapInsert, hq] at h
      rcases h with h | h
      · right; simp [h]
      · left; exact .tail _ h
    · simp [mapInsert, hq] at h
      rcases h with h | h
      · left; simp [h]
      · rcases ih h with h' | h'
        · left; exact .tail _ h'
        · right; exact h'

theorem mapLookup_isSome_iff (m : List (String × Option RateLimiterRateConfig)) (k : String) :
    (mapLookup m k).isSome ↔ k ∈ m.map Prod.fst := by
  induction m with
  | nil => simp [mapLookup]
  | cons p rest ih =>
    by_cases hp : p.1 = k <;> simp [mapLookup, hp, ih]
    exact fun h => absurd h.symm hp

theorem mapLookup_completeNil (t : Option RateLimiterRateConfig)
    (m : List (String × Option RateLimiterRateConfig)) (k : String) :
    mapLookup (completeNilCustomTokens t m) k =
      (mapLookup m k).map (fun v => if v = none then t else v) := by
  induction m with
  | nil => rfl
  | cons p rest ih =>
    show mapLookup ((if p.2 = none then (p.1, t) else p) :: completeNilCustomTokens t rest) k = _
    by_cases hv : p.2 = none
    · rw [if_pos hv]
      by_cases hp : p.1 = k
      · simp [mapLookup, hp, hv]
      · simp [mapLookup, hp, ih]
    · rw [if_neg hv]
      by_cases hp : p.1 = k
      · simp [mapLookup, hp, hv]
      · simp [mapLookup, hp, ih]

theorem completeNil_allSome {t : Option RateLimiterRateConfig} (ht : t ≠ none)
    (m : List (String × Option RateLimiterRateConfig)) :
    ∀ p ∈ completeNilCustomTokens t m, p.2 ≠ none := by
  intro p hp
  simp only [completeNilCustomTokens, List.mem_map] at hp
  obtain ⟨q, _, hq⟩ := hp
  by_cases hv : q.2 = none
  · simp [hv] at hq
    rw [← hq]
    exact ht
  · simp [hv] at hq
    rw [← hq]
    exact hv

theorem mem_getCustomTokenList (env : Env) (t : String) :
    t ∈ getCustomTokenList env ↔ ∃ p ∈ env, extractTokenId p.1 = some t := by
  simp [getCustomTokenList, List.mem_dedup, List.mem_filterMap]

theorem envOverrideRate_max (env : Env) (kM kB : String) (p : RateLimiterRateConfig) :
    (envOverrideRate env kM kB p).MaxRequestsPerSecond =
      (getInt64Env env kM).getD p.MaxRequestsPerSecond := by
  unfold envOverrideRate
  cases getInt64Env env kM <;> cases getInt64Env env kB <;> simp

theorem envOverrideRate_block (env : Env) (kM kB : String) (p : RateLimiterRateConfig) :
    (envOverrideRate env kM kB p).BlockTimeMilliseconds =
      (getInt64Env env kB).getD p.BlockTimeMilliseconds := by
  unfold envOverrideRate
  cases getInt64Env env kM <;> cases getInt64Env env kB <;> simp

theorem envOverrideRate_idem (env : Env) (kM kB : String) (p : RateLimiterRateConfig) :
    envOverrideRate env kM kB (envOverrideRate env kM kB p) = envOverrideRate env kM kB p := by
  unfold envOverrideRate
  cases getInt64Env env kM <;> cases getInt64Env env kB <;> simp

theorem completeNil_noop (t : Option RateLimiterRateConfig)
    (m : List (String × Option RateLimiterRateConfig)) (h : ∀ p ∈ m, p.2 ≠ none) :
    completeNilCustomTokens t m = m := by
  induction m with
  | nil => rfl
  | cons p rest ih =>
    have hp : p.2 ≠ none := h p (List.mem_cons_self _ _)
    have hrest : completeNilCustomTokens t rest = rest :=
      ih (fun q hq => h q (List.mem_cons_of_mem _ hq))
    show (if p.2 = none then (p.1, t) else p) :: completeNilCustomTokens t rest = p :: rest
    rw [if_neg hp, hrest]

theorem dropLit_eq_some {pre : List Char} :
    ∀ {l rest : List Char}, dropLit pre l = some rest → l = pre ++ rest := by
  induction pre with
  | nil =>
    intro l rest h
    simp [dropLit] at h
    simp [h]
  | cons p ps ih =>
    intro l rest h
    cases l with
    | nil => simp [dropLit] at h
    | cons c cs =>
      by_cases hc : c = p
      · simp only [dropLit, if_pos hc] at h
        simp [hc, ih h]
      · simp [dropLit, hc] at h

theorem dropLitEnd_eq_some {l sfx mid : List Char} (h : dropLitEnd l sfx = some mid) :
    l = mid ++ sfx := by
  simp only [dropLitEnd, Option.map_eq_some'] at h
  obtain ⟨r, hr, hmid⟩ := h
  have hrev := dropLit_eq_some hr
  have hl : l = (sfx.reverse ++ r).reverse := by
    rw [← hrev]
    simp
  rw [hl, ← hmid]
  simp

theorem extractTokenId_name {name t : String} (h : extractTokenId name = some t) :
    name = "RATE_LIMITER_TOKEN_" ++ t ++ "_MAX_REQUESTS" ∨
      name = "RATE_LIMITER_TOKEN_" ++ t ++ "_BLOCK_TIME" := by
  unfold extractTokenId at h
  split at h
  · exact absurd h (by simp)
  · rename_i rest hrest
    have h1 : name.data = "RATE_LIMITER_TOKEN_".data ++ rest := dropLit_eq_some hrest
    split at h
    · rename_i mid hmid
      have h2 : rest = mid ++ "_MAX_REQUESTS".data := dropLitEnd_eq_some hmid
      have ht : t.data = mid := by
        injection h with h'
        rw [← h']
      left
      apply String.ext
      rw [h1, h2, ← ht]
      simp [String.data_append]
    · split at h
      · rename_i mid hmid
        have h2 : rest = mid ++ "_BLOCK_TIME".data := dropLitEnd_eq_some hmid
        have ht : t.data = mid := by
          injection h with h'
          rw [← h']
        right
        apply String.ext
        rw [h1, h2, ← ht]
        simp [String.data_append]
      · exact absurd h (by simp)

/-! ## Lemmas about the resolution stages -/

theorem foldl_configureCustomToken (env : Env) (d : RateLimiterConfig) (L : List String)
    (c : RateLimiterConfig) :
    L.foldl (fun c t => configureCustomToken env c d t) c =
      { c with
        CustomTokens :=
          c.CustomTokens.map
            (fun m =>
              L.foldl (fun m t => mapInsert m t (some (customTokenValue env c.Token t))) m) } := by
  induction L generalizing c with
  | nil =>
    obtain ⟨ip, tok, ct, sa, rw, dbg, de⟩ := c
    cases ct <;> rfl
  | cons t L ih =>
    show L.foldl _ (configureCustomToken env c d t) = _
    rw [ih (configureCustomToken env c d t)]
    obtain ⟨ip, tok, ct, sa, rw, dbg, de⟩ := c
    cases ct <;> rfl

theorem mapLookup_foldl_insert (env : Env) (tok : Option RateLimiterRateConfig)
    (L : List String) (m₀ : List (String × Option RateLimiterRateConfig)) (k : String) :
    mapLookup (L.foldl (fun m t => mapInsert m t (some (customTokenValue env tok t))) m₀) k =
      if k ∈ L then some (some (customTokenValue env tok k)) else mapLookup m₀ k := by
  induction L generalizing m₀ with
  | nil => simp
  | cons t L ih =>
    show mapLookup (L.foldl _ (mapInsert m₀ t _)) k = _
    rw [ih]
    by_cases hL : k ∈ L
    · simp [hL]
    · by_cases hk : k = t
      · simp [hL, hk, mapLookup_mapInsert]
      · simp [hL, hk, mapLookup_mapInsert]

theorem foldl_insert_noop (env : Env) (tok : Option RateLimiterRateConfig) (L : List String)
    (m : List (String × Option RateLimiterRateConfig))
    (h : ∀ t ∈ L, mapLookup m t = some (some (customTokenValue env tok t))) :
    L.foldl (fun m t => mapInsert m t (some (customTokenValue env tok t))) m = m := by
  induction L with
  | nil => rfl
  | cons t L ih =>
    have h1 : mapInsert m t (some (customTokenValue env tok t)) = m :=
      mapInsert_of_mapLookup_eq _ _ _ (h t (List.mem_cons_self _ _))
    show L.foldl _ (mapInsert m t _) = m
    rw [h1]
    exact ih (fun u hu => h u (List.mem_cons_of_mem _ hu))

theorem foldl_insert_allSome (env : Env) (tok : Option RateLimiterRateConfig) (L : List String) :
    ∀ m, (∀ p ∈ m, p.2 ≠ none) →
      ∀ p ∈ L.foldl (fun m t => mapInsert m t (some (customTokenValue env tok t))) m, p.2 ≠ none := by
  induction L with
  | nil => exact fun m hm => hm
  | cons t L ih =>
    intro m hm p hp
    refine ih (mapInsert m t (some (customTokenValue env tok t))) ?_ p hp
    intro q hq
    rcases mem_mapInsert hq with h | h
    · exact hm q h
    · rw [h]
      simp

theorem configureIP_Token (env : Env) (c d : RateLimiterConfig) :
    (configureIP env c d).Token = c.Token := rfl

theorem configureIP_CustomTokens (env : Env) (c d : RateLimiterConfig) :
    (configureIP env c d).CustomTokens = c.CustomTokens := rfl

theorem configureIP_Debug (env : Env) (c d : RateLimiterConfig) :
    (configureIP env c d).Debug = c.Debug := rfl

theorem configureIP_DisableEnvs (env : Env) (c d : RateLimiterConfig) :
    (configureIP env c d).DisableEnvs = c.DisableEnvs := rfl

theorem configureIP_StorageAdapter (env : Env) (c d : RateLimiterConfig) :
    (configureIP env c d).StorageAdapter = c.StorageAdapter := rfl

theorem configureIP_ResponseWriter (env : Env) (c d : RateLimiterConfig) :
    (configureIP env c d).ResponseWriter = c.ResponseWriter := rfl

theorem configureIP_IP (env : Env) (c d : RateLimiterConfig) :
    (configureIP env c d).IP =
      if c.DisableEnvs then (if c.IP = none then d.IP else c.IP)
      else
        (if c.IP = none then d.IP else c.IP).map
          (envOverrideRate env envKeyIPMaxRequestsPerSecond envKeyIPBlockTimeMilliseconds) := rfl

theorem configureToken_IP (env : Env) (c d : RateLimiterConfig) :
    (configureToken env c d).IP = c.IP := rfl

theorem configureToken_CustomTokens (env : Env) (c d : RateLimiterConfig) :
    (configureToken env c d).CustomTokens = c.CustomTokens := rfl

theorem configureToken_Debug (env : Env) (c d : RateLimiterConfig) :
    (configureToken env c d).Debug = c.Debug := rfl

theorem configureToken_DisableEnvs (env : Env) (c d : RateLimiterConfig) :
    (configureToken env c d).DisableEnvs = c.DisableEnvs := rfl

theorem configureToken_StorageAdapter (env : Env) (c d : RateLimiterConfig) :
    (configureToken env c d).StorageAdapter = c.StorageAdapter := rfl

theorem configureToken_ResponseWriter (env : Env) (c d : RateLimiterConfig) :
    (configureToken env c d).ResponseWriter = c.ResponseWriter := rfl

theorem configureToken_Token (env : Env) (c d : RateLimiterConfig) :
    (configureToken env c d).Token =
      if c.DisableEnvs then (if c.Token = none then d.Token else c.Token)
      else
        (if c.Token = none then d.Token else c.Token).map
          (envOverrideRate env envKeyTokenMaxRequestsPerSecond envKeyTokenBlockTimeMilliseconds) := rfl

theorem configureCustomTokens_spec (env : Env) (c : RateLimiterConfig) :
    configureCustomTokens env c getDefaultConfiguration =
      { c with
        CustomTokens := some
          ((getCustomTokenList env).foldl
            (fun m t => mapInsert m t (some (customTokenValue env c.Token t)))
            (completeNilCustomTokens c.Token (c.CustomTokens.getD []))) } := by
  unfold configureCustomTokens
  rw [foldl_configureCustomToken]
  cases hc : c.CustomTokens <;> simp [hc, getDefaultConfiguration, completeNilCustomTokens]

theorem configureStorageAdapter_not_redis {env : Env} (c d : RateLimiterConfig)
    (h : getBoolEnv env envUseRedis ≠ some true) :
    configureStorageAdapter env c d =
      .ok { c with
            StorageAdapter :=
              if c.StorageAdapter = none then d.StorageAdapter else c.StorageAdapter } := by
  cases hb : getBoolEnv env envUseRedis with
  | none => simp [configureStorageAdapter, hb]
  | some b =>
    cases b with
    | true => exact absurd hb h
    | false => simp [configureStorageAdapter, hb]

theorem configureStorageAdapter_redis_missing {env : Env} (c d : RateLimiterConfig)
    (hb : getBoolEnv env envUseRedis = some true)
    (ha : getEnv env envRedisAddress = none) :
    configureStorageAdapter env c d =
      .error (envRedisAddress ++ " env is required when using redis adapter with env configuration") := by
  simp [configureStorageAdapter, configureRedisStorageAdapter, getStringEnv, hb, ha]

theorem configureStorageAdapter_redis_ok {env : Env} (c d : RateLimiterConfig) {a : String}
    (hb : getBoolEnv env envUseRedis = some true)
    (ha : getEnv env envRedisAddress = some a) :
    configureStorageAdapter env c d =
      .ok { c with
            StorageAdapter :=
              some (.redis a ((getStringEnv env envRedisPassword).getD "")
                ((getInt64Env env envRedisDB).getD 0)) } := by
  simp [configureStorageAdapter, configureRedisStorageAdapter, getStringEnv, hb, ha]

theorem configureStorageAdapter_ok_fields {env : Env} {c c' : RateLimiterConfig}
    (h : configureStorageAdapter env c getDefaultConfiguration = .ok c') :
    c'.IP = c.IP ∧ c'.Token = c.Token ∧ c'.CustomTokens = c.CustomTokens ∧
      c'.Debug = c.Debug ∧ c'.DisableEnvs = c.DisableEnvs ∧ c'.StorageAdapter ≠ none := by
  by_cases hb : getBoolEnv env envUseRedis = some true
  · cases ha : getEnv env envRedisAddress with
    | none =>
      rw [configureStorageAdapter_redis_missing c _ hb ha] at h
      exact absurd h (by simp)
    | some a =>
      rw [configureStorageAdapter_redis_ok c _ hb ha] at h
      injection h with h'
      rw [← h']
      exact ⟨rfl, rfl, rfl, rfl, rfl, by simp⟩
  · rw [configureStorageAdapter_not_redis c _ hb] at h
    injection h with h'
    rw [← h']
    refine ⟨rfl, rfl, rfl, rfl, rfl, ?_⟩
    by_cases hsa : c.StorageAdapter = none <;> simp [hsa, getDefaultConfiguration]

theorem configureResponseWriter_IP (c d : RateLimiterConfig) :
    (configureResponseWriter c d).IP = c.IP := rfl

theorem configureResponseWriter_Token (c d : RateLimiterConfig) :
    (configureResponseWriter c d).Token = c.Token := rfl

theorem configureResponseWriter_CustomTokens (c d : RateLimiterConfig) :
    (configureResponseWriter c d).CustomTokens = c.CustomTokens := rfl

theorem configureResponseWriter_Debug (c d : RateLimiterConfig) :
    (configureResponseWriter c d).Debug = c.Debug := rfl

theorem configureResponseWriter_DisableEnvs (c d : RateLimiterConfig) :
    (configureResponseWriter c d).DisableEnvs = c.DisableEnvs := rfl

theorem configureResponseWriter_StorageAdapter (c d : RateLimiterConfig) :
    (configureResponseWriter c d).StorageAdapter = c.StorageAdapter := rfl

theorem configureResponseWriter_ResponseWriter (c d : RateLimiterConfig) :
    (configureResponseWriter c d).ResponseWriter =
      if c.ResponseWriter = none then d.ResponseWriter else c.ResponseWriter := rfl

theorem resolveDebug_IP (env : Env) (c : RateLimiterConfig) :
    (resolveDebug env c).IP = c.IP := rfl

theorem resolveDebug_Token (env : Env) (c : RateLimiterConfig) :
    (resolveDebug env c).Token = c.Token := rfl

theorem resolveDebug_CustomTokens (env : Env) (c : RateLimiterConfig) :
    (resolveDebug env c).CustomTokens = c.CustomTokens := rfl

theorem resolveDebug_StorageAdapter (env : Env) (c : RateLimiterConfig) :
    (resolveDebug env c).StorageAdapter = c.StorageAdapter := rfl

theorem resolveDebug_ResponseWriter (env : Env) (c : RateLimiterConfig) :
    (resolveDebug env c).ResponseWriter = c.ResponseWriter := rfl

theorem resolveDebug_DisableEnvs (env : Env) (c : RateLimiterConfig) :
    (resolveDebug env c).DisableEnvs = c.DisableEnvs := rfl

theorem configureCustomTokens_IP (env : Env) (c : RateLimiterConfig) :
    (configureCustomTokens env c getDefaultConfiguration).IP = c.IP := by
  rw [configureCustomTokens_spec]

theorem configureCustomTokens_Token (env : Env) (c : RateLimiterConfig) :
    (configureCustomTokens env c getDefaultConfiguration).Token = c.Token := by
  rw [configureCustomTokens_spec]

theorem configureCustomTokens_Debug (env : Env) (c : RateLimiterConfig) :
    (configureCustomTokens env c getDefaultConfiguration).Debug = c.Debug := by
  rw [configureCustomTokens_spec]

theorem configureCustomTokens_DisableEnvs (env : Env) (c : RateLimiterConfig) :
    (configureCustomTokens env c getDefaultConfiguration).DisableEnvs = c.DisableEnvs := by
  rw [configureCustomTokens_spec]

theorem configureCustomTokens_StorageAdapter (env : Env) (c : RateLimiterConfig) :
    (configureCustomTokens env c getDefaultConfiguration).StorageAdapter = c.StorageAdapter := by
  rw [configureCustomTokens_spec]

theorem configureCustomTokens_ResponseWriter (env : Env) (c : RateLimiterConfig) :
    (configureCustomTokens env c getDefaultConfiguration).ResponseWriter = c.ResponseWriter := by
  rw [configureCustomTokens_spec]

theorem configureIP_IP_isSome (env : Env) (c : RateLimiterConfig) :
    (configureIP env c getDefaultConfiguration).IP ≠ none := by
  rw [configureIP_IP]
  by_cases hde : c.DisableEnvs <;> by_cases hip : c.IP = none <;>
    simp [hde, hip, getDefaultConfiguration]

theorem configureToken_Token_isSome (env : Env) (c : RateLimiterConfig) :
    (configureToken env c getDefaultConfiguration).Token ≠ none := by
  rw [configureToken_Token]
  by_cases hde : c.DisableEnvs <;> by_cases htok : c.Token = none <;>
    simp [hde, htok, getDefaultConfiguration]

theorem configureResponseWriter_isSome (c : RateLimiterConfig) :
    (configureResponseWriter c getDefaultConfiguration).ResponseWriter ≠ none := by
  rw [configureResponseWriter_ResponseWriter]
  by_cases h : c.ResponseWriter = none <;> simp [h, getDefaultConfiguration]

theorem setConfiguration_ok_inversion {co : Option RateLimiterConfig} {env : Env}
    {c : RateLimiterConfig} (h : setConfiguration co env = .ok c) :
    ∃ c5,
      configureStorageAdapter env
          (configureCustomTokens env
            (configureToken env
              (configureIP env (resolveDebug env (co.getD getDefaultConfiguration))
                getDefaultConfiguration)
              getDefaultConfiguration)
            getDefaultConfiguration)
          getDefaultConfiguration = .ok c5 ∧
        c = configureResponseWriter c5 getDefaultConfiguration := by
  simp only [setConfiguration] at h
  split at h
  · exact absurd h (by simp)
  · rename_i c5 heq
    injection h with h'
    exact ⟨c5, heq, h'.symm⟩

theorem setConfiguration_ok_shape {co : Option RateLimiterConfig} {env : Env}
    {c1 : RateLimiterConfig} (hok : setConfiguration co env = .ok c1) :
    c1.IP =
        (configureIP env (resolveDebug env (co.getD getDefaultConfiguration))
          getDefaultConfiguration).IP ∧
      c1.Token =
        (configureToken env
          (configureIP env (resolveDebug env (co.getD getDefaultConfiguration))
            getDefaultConfiguration)
          getDefaultConfiguration).Token ∧
      c1.CustomTokens =
        (configureCustomTokens env
          (configureToken env
            (configureIP env (resolveDebug env (co.getD getDefaultConfiguration))
              getDefaultConfiguration)
            getDefaultConfiguration)
          getDefaultConfiguration).CustomTokens ∧
      c1.Debug = (resolveDebug env (co.getD getDefaultConfiguration)).Debug ∧
      c1.DisableEnvs = (co.getD getDefaultConfiguration).DisableEnvs ∧
      c1.StorageAdapter ≠ none ∧ c1.ResponseWriter ≠ none := by
  obtain ⟨c5, hsa, hc⟩ := setConfiguration_ok_inversion hok
  obtain ⟨hip5, htok5, hct5, hdbg5, hde5, hsane⟩ := configureStorageAdapter_ok_fields hsa
  subst hc
  refine ⟨?_, ?_, ?_, ?_, ?_, ?_, ?_⟩
  · rw [configureResponseWriter_IP, hip5, configureCustomTokens_IP, configureToken_IP]
  · rw [configureResponseWriter_Token, htok5, configureCustomTokens_Token]
  · rw [configureResponseWriter_CustomTokens, hct5]
  · rw [configureResponseWriter_Debug, hdbg5, configureCustomTokens_Debug,
      configureToken_Debug, configureIP_Debug]
  · rw [configureResponseWriter_DisableEnvs, hde5, configureCustomTokens_DisableEnvs,
      configureToken_DisableEnvs, configureIP_DisableEnvs, resolveDebug_DisableEnvs]
  · rw [configureResponseWriter_StorageAdapter]
    exact hsane
  · exact configureResponseWriter_isSome c5

theorem resolveDebug_Debug (env : Env) (c : RateLimiterConfig) :
    (resolveDebug env c).Debug =
      if c.DisableEnvs then c.Debug
      else
        match getBoolEnv env envKeyDebug with
        | some debug => debug
        | none => c.Debug := rfl

theorem configureIP_fix (env : Env) (c c₀ : RateLimiterConfig)
    (hip : c.IP = (configureIP env c₀ getDefaultConfiguration).IP)
    (hde : c.DisableEnvs = c₀.DisableEnvs) :
    (configureIP env c getDefaultConfiguration).IP = c.IP := by
  rw [configureIP_IP] at hip ⊢
  rw [hde]
  by_cases h0 : c₀.DisableEnvs
  · rw [if_pos h0] at hip ⊢
    have hne : ¬c.IP = none := by
      rw [hip]
      by_cases h1 : c₀.IP = none <;> simp [h1, getDefaultConfiguration]
    rw [if_neg hne]
  · rw [if_neg h0] at hip ⊢
    obtain ⟨p, hp⟩ : ∃ p, c.IP =
        some (envOverrideRate env envKeyIPMaxRequestsPerSecond
          envKeyIPBlockTimeMilliseconds p) := by
      by_cases h1 : c₀.IP = none
      · rw [hip, if_pos h1]
        exact ⟨_, rfl⟩
      · cases hc0 : c₀.IP with
        | none => exact absurd hc0 h1
        | some q =>
          rw [hip, if_neg h1, hc0]
          exact ⟨q, rfl⟩
    have hne : ¬c.IP = none := by
      rw [hp]
      simp
    rw [if_neg hne, hp]
    simp only [Option.map_some']
    rw [envOverrideRate_idem]

theorem configureToken_fix (env : Env) (c c₀ : RateLimiterConfig)
    (htok : c.Token = (configureToken env c₀ getDefaultConfiguration).Token)
    (hde : c.DisableEnvs = c₀.DisableEnvs) :
    (configureToken env c getDefaultConfiguration).Token = c.Token := by
  rw [configureToken_Token] at htok ⊢
  rw [hde]
  by_cases h0 : c₀.DisableEnvs
  · rw [if_pos h0] at htok ⊢
    have hne : ¬c.Token = none := by
      rw [htok]
      by_cases h1 : c₀.Token = none <;> simp [h1, getDefaultConfiguration]
    rw [if_neg hne]
  · rw [if_neg h0] at htok ⊢
    obtain ⟨p, hp⟩ : ∃ p, c.Token =
        some (envOverrideRate env envKeyTokenMaxRequestsPerSecond
          envKeyTokenBlockTimeMilliseconds p) := by
      by_cases h1 : c₀.Token = none
      · rw [htok, if_pos h1]
        exact ⟨_, rfl⟩
      · cases hc0 : c₀.Token with
        | none => exact absurd hc0 h1
        | some q =>
          rw [htok, if_neg h1, hc0]
          exact ⟨q, rfl⟩
    have hne : ¬c.Token = none := by
      rw [hp]
      simp
    rw [if_neg hne, hp]
    simp only [Option.map_some']
    rw [envOverrideRate_idem]

theorem configureCustomTokens_fix (env : Env) (c c₀ : RateLimiterConfig)
    (htok : c.Token = c₀.Token)
    (hct : c.CustomTokens =
      (configureCustomTokens env c₀ getDefaultConfiguration).CustomTokens)
    (htokS : c.Token ≠ none) :
    (configureCustomTokens env c getDefaultConfiguration).CustomTokens = c.CustomTokens := by
  simp only [configureCustomTokens_spec] at hct ⊢
  rw [hct]
  simp only [Option.getD_some]
  have htok0 : c₀.Token ≠ none := by
    rw [← htok]
    exact htokS
  have hsome : ∀ p ∈ (getCustomTokenList env).foldl
      (fun m t => mapInsert m t (some (customTokenValue env c₀.Token t)))
      (completeNilCustomTokens c₀.Token (c₀.CustomTokens.getD [])), p.2 ≠ none :=
    foldl_insert_allSome env c₀.Token _ _ (completeNil_allSome htok0 _)
  rw [completeNil_noop _ _ hsome, htok]
  rw [foldl_insert_noop env c₀.Token (getCustomTokenList env) _
    (fun t ht => by rw [mapLookup_foldl_insert, if_pos ht])]

/-! ## The claims -/

/-- A caller configuration with no fields set and environment overrides
enabled. -/
def bareConfig : RateLimiterConfig :=
  { IP := none, Token := none, CustomTokens := none, StorageAdapter := none,
    ResponseWriter := none, Debug := false, DisableEnvs := false }

/-- C1: the claim says a `DisableEnvs = true` resolution is identical to
the same resolution against the empty environment.  The code violates
this (and the source's own comment `// if true, environment values are
ignored` in `cmd/server/main.go`): `configureCustomTokens` scans the
environment and `configureCustomToken` reads the per-token variables
without consulting `DisableEnvs`, so a single
`RATE_LIMITER_TOKEN_ABC_MAX_REQUESTS=50` entry changes the resolved
custom-token mapping relative to the empty environment. -/
theorem C1_disable_envs_not_honored :
    (setConfiguration (some { bareConfig with DisableEnvs := true })
          [("RATE_LIMITER_TOKEN_ABC_MAX_REQUESTS", "50")]).map
        RateLimiterConfig.CustomTokens =
      .ok (some [("ABC", some { MaxRequestsPerSecond := 50, BlockTimeMilliseconds := 500 })]) ∧
    (setConfiguration (some { bareConfig with DisableEnvs := true }) []).map
        RateLimiterConfig.CustomTokens =
      .ok (some []) := by
  exact ⟨rfl, rfl⟩

/-- C2: the claim says that with `envOverridesDisabled = true` and no
caller fields the result is exactly the default policy for *every*
environment.  The code violates it for any environment declaring a
custom token: here `RATE_LIMITER_TOKEN_AAA_BLOCK_TIME=7` yields a
non-empty custom-token mapping although `DisableEnvs` is set. -/
theorem C2_default_policy_not_returned :
    setConfiguration (some { bareConfig with DisableEnvs := true })
        [("RATE_LIMITER_TOKEN_AAA_BLOCK_TIME", "7")] =
      .ok { IP := some { MaxRequestsPerSecond := 100, BlockTimeMilliseconds := 1000 }
            Token := some { MaxRequestsPerSecond := 200, BlockTimeMilliseconds := 500 }
            CustomTokens := some [("AAA",
              some { MaxRequestsPerSecond := 200, BlockTimeMilliseconds := 7 })]
            StorageAdapter := some .memory
            ResponseWriter := some .defaultWriter
            Debug := false
            DisableEnvs := true } := by
  exact rfl

/-- C3: whenever `RATE_LIMITER_USE_REDIS` holds a truthy literal and
`RATE_LIMITER_REDIS_ADDRESS` is unset, resolution aborts (the Go
`panic`, modelled by `Except.error`) with the descriptive message, for
every caller configuration. -/
theorem C3_redis_address_mandatory (config : Option RateLimiterConfig) (env : Env)
    (hb : getBoolEnv env envUseRedis = some true)
    (ha : getEnv env envRedisAddress = none) :
    setConfiguration config env =
      .error (envRedisAddress ++
        " env is required when using redis adapter with env configuration") := by
  simp only [setConfiguration]
  rw [configureStorageAdapter_redis_missing _ _ hb ha]

/-- Witness for C3 at the concrete environment `RATE_LIMITER_USE_REDIS=true`. -/
theorem C3_redis_address_mandatory_witness :
    getBoolEnv [(envUseRedis, "true")] envUseRedis = some true ∧
      getEnv [(envUseRedis, "true")] envRedisAddress = none ∧
      setConfiguration none [(envUseRedis, "true")] =
        .error (envRedisAddress ++
          " env is required when using redis adapter with env configuration") :=
  ⟨by decide, rfl, C3_redis_address_mandatory none [(envUseRedis, "true")] (by decide) rfl⟩

/-- C5 counterexample: the claim says the discoverer never yields the
empty identifier; yet the environment entry
`RATE_LIMITER_TOKEN__MAX_REQUESTS=5` (a legal variable name) makes the
greedy regex group match the empty string, and the discoverer yields
`""`. -/
theorem C5_counterexample :
    getCustomTokenList [("RATE_LIMITER_TOKEN__MAX_REQUESTS", "5")] = [""] := by
  rfl

/-- C5 (amended): every identifier the discoverer yields does come from
an environment variable name of the form
`RATE_LIMITER_TOKEN_<ID>_MAX_REQUESTS` or
`RATE_LIMITER_TOKEN_<ID>_BLOCK_TIME`, but `<ID>` — the regex group —
may be empty and may itself contain the underscore separator (it is
whatever stands between the literal head and the literal tail). -/
theorem C5_discovered_ids_from_pattern (env : Env) (t : String)
    (h : t ∈ getCustomTokenList env) :
    ∃ p ∈ env,
      p.1 = "RATE_LIMITER_TOKEN_" ++ t ++ "_MAX_REQUESTS" ∨
        p.1 = "RATE_LIMITER_TOKEN_" ++ t ++ "_BLOCK_TIME" := by
  rw [mem_getCustomTokenList] at h
  obtain ⟨p, hp, he⟩ := h
  exact ⟨p, hp, extractTokenId_name he⟩

/-- Witness for the amended C5 at a concrete environment. -/
theorem C5_discovered_ids_from_pattern_witness :
    "ABC" ∈ getCustomTokenList [("RATE_LIMITER_TOKEN_ABC_MAX_REQUESTS", "50")] ∧
      ∃ p ∈ ([("RATE_LIMITER_TOKEN_ABC_MAX_REQUESTS", "50")] : Env),
        p.1 = "RATE_LIMITER_TOKEN_" ++ "ABC" ++ "_MAX_REQUESTS" ∨
          p.1 = "RATE_LIMITER_TOKEN_" ++ "ABC" ++ "_BLOCK_TIME" :=
  ⟨by decide,
    C5_discovered_ids_from_pattern [("RATE_LIMITER_TOKEN_ABC_MAX_REQUESTS", "50")] "ABC"
      (by decide)⟩

/-- C10: on a configuration whose custom-token map is present, the
per-token lookup returns the map's entry together with `true` when the
token is a key, else the configuration's Token policy together with
`false` (the method only reads the configuration; the model is a pure
function of it). -/
theorem C10_lookup_token_config (c : RateLimiterConfig)
    (m : List (String × Option RateLimiterRateConfig)) (token : String)
    (h : c.CustomTokens = some m) :
    (∀ v, mapLookup m token = some v →
        GetRateLimiterRateConfigForToken c token = some (v, true)) ∧
      (mapLookup m token = none →
        GetRateLimiterRateConfigForToken c token = some (c.Token, false)) := by
  unfold GetRateLimiterRateConfigForToken
  rw [h]
  constructor
  · intro v hv
    simp only [hv]
  · intro hv
    simp only [hv]

/-- Witness for C10 on a concrete map: `ABC` is a key, `DEF` is not. -/
theorem C10_lookup_token_config_witness :
    ({ bareConfig with
        Token := some { MaxRequestsPerSecond := 200, BlockTimeMilliseconds := 500 }
        CustomTokens := some [("ABC",
          some { MaxRequestsPerSecond := 1, BlockTimeMilliseconds := 2 })] } :
        RateLimiterConfig).CustomTokens =
      some [("ABC", some { MaxRequestsPerSecond := 1, BlockTimeMilliseconds := 2 })] ∧
    ((∀ v,
        mapLookup [("ABC", some { MaxRequestsPerSecond := 1, BlockTimeMilliseconds := 2 })]
            "ABC" = some v →
          GetRateLimiterRateConfigForToken
              { bareConfig with
                Token := some { MaxRequestsPerSecond := 200, BlockTimeMilliseconds := 500 }
                CustomTokens := some [("ABC",
                  some { MaxRequestsPerSecond := 1, BlockTimeMilliseconds := 2 })] } "ABC" =
            some (v, true)) ∧
      (mapLookup [("ABC", some { MaxRequestsPerSecond := 1, BlockTimeMilliseconds := 2 })]
          "ABC" = none →
        GetRateLimiterRateConfigForToken
            { bareConfig with
              Token := some { MaxRequestsPerSecond := 200, BlockTimeMilliseconds := 500 }
              CustomTokens := some [("ABC",
                some { MaxRequestsPerSecond := 1, BlockTimeMilliseconds := 2 })] } "ABC" =
          some ((some { MaxRequestsPerSecond := 200, BlockTimeMilliseconds := 500 }), false))) :=
  ⟨rfl, C10_lookup_token_config _ _ "ABC" rfl⟩

/-- C6: with `envOverridesDisabled = false` and no caller IP policy, an
integer environment value for `RATE_LIMITER_IP_MAX_REQUESTS` becomes
the resolved IP max-requests exactly; with the variable unset or not a
base-10 integer (`getInt64Env` reports not-present either way) it is
the default 100. -/
theorem C6_ip_max_requests_override (cfg : RateLimiterConfig) (env : Env)
    (c : RateLimiterConfig)
    (hde : cfg.DisableEnvs = false) (hip : cfg.IP = none)
    (hok : setConfiguration (some cfg) env = .ok c) :
    (∀ v : Int, getInt64Env env envKeyIPMaxRequestsPerSecond = some v →
        ∃ p, c.IP = some p ∧ p.MaxRequestsPerSecond = v) ∧
      (getInt64Env env envKeyIPMaxRequestsPerSecond = none →
        ∃ p, c.IP = some p ∧ p.MaxRequestsPerSecond = 100) := by
  obtain ⟨hipc, -, -, -, -, -, -⟩ := setConfiguration_ok_shape hok
  rw [configureIP_IP] at hipc
  simp only [Option.getD_some, resolveDebug_IP, resolveDebug_DisableEnvs, hde, hip,
    if_true, if_false, Bool.false_eq_true, getDefaultConfiguration, Option.map_some'] at hipc
  constructor
  · intro v hv
    refine ⟨_, hipc, ?_⟩
    rw [envOverrideRate_max, hv]
    rfl
  · intro hv
    refine ⟨_, hipc, ?_⟩
    rw [envOverrideRate_max, hv]
    rfl

/-- The resolved configuration of the C6 witness run. -/
def c6Result : RateLimiterConfig :=
  { IP := some { MaxRequestsPerSecond := 42, BlockTimeMilliseconds := 1000 }
    Token := some { MaxRequestsPerSecond := 200, BlockTimeMilliseconds := 500 }
    CustomTokens := some []
    StorageAdapter := some .memory
    ResponseWriter := some .defaultWriter
    Debug := false
    DisableEnvs := false }

/-- Witness for C6: `RATE_LIMITER_IP_MAX_REQUESTS=42` resolves to 42. -/
theorem C6_ip_max_requests_override_witness :
    bareConfig.DisableEnvs = false ∧ bareConfig.IP = none ∧
      setConfiguration (some bareConfig) [("RATE_LIMITER_IP_MAX_REQUESTS", "42")] =
        .ok c6Result ∧
      ((∀ v : Int,
          getInt64Env [("RATE_LIMITER_IP_MAX_REQUESTS", "42")] envKeyIPMaxRequestsPerSecond =
              some v →
            ∃ p, c6Result.IP = some p ∧ p.MaxRequestsPerSecond = v) ∧
        (getInt64Env [("RATE_LIMITER_IP_MAX_REQUESTS", "42")] envKeyIPMaxRequestsPerSecond =
            none →
          ∃ p, c6Result.IP = some p ∧ p.MaxRequestsPerSecond = 100)) :=
  ⟨rfl, rfl, rfl,
    C6_ip_max_requests_override bareConfig [("RATE_LIMITER_IP_MAX_REQUESTS", "42")] c6Result
      rfl rfl rfl⟩

/-- C8: whenever resolution returns (does not abort), every one of the
IP policy, Token policy, custom-token map, storage adapter and response
writer of the result is present (non-nil), for every caller
configuration — the entirely absent one included — and environment. -/
theorem C8_resolved_fields_present (co : Option RateLimiterConfig) (env : Env)
    (c : RateLimiterConfig) (hok : setConfiguration co env = .ok c) :
    c.IP ≠ none ∧ c.Token ≠ none ∧ c.CustomTokens ≠ none ∧
      c.StorageAdapter ≠ none ∧ c.ResponseWriter ≠ none := by
  obtain ⟨hip, htok, hct, -, -, hsa, hrw⟩ := setConfiguration_ok_shape hok
  refine ⟨?_, ?_, ?_, hsa, hrw⟩
  · rw [hip]
    exact configureIP_IP_isSome _ _
  · rw [htok]
    exact configureToken_Token_isSome _ _
  · rw [hct, configureCustomTokens_spec]
    simp

/-- Witness for C8: the fully-absent caller configuration in the empty
environment resolves to the default configuration, all fields present. -/
theorem C8_resolved_fields_present_witness :
    setConfiguration none [] = .ok getDefaultConfiguration ∧
      (getDefaultConfiguration.IP ≠ none ∧ getDefaultConfiguration.Token ≠ none ∧
        getDefaultConfiguration.CustomTokens ≠ none ∧
        getDefaultConfiguration.StorageAdapter ≠ none ∧
        getDefaultConfiguration.ResponseWriter ≠ none) :=
  ⟨rfl, C8_resolved_fields_present none [] getDefaultConfiguration rfl⟩

/-- C7: a caller custom-token entry whose value is absent (nil) — with
no environment declaration for that identifier — resolves to the
already-resolved Token policy, and after resolution no value of the
custom-token map is absent. -/
theorem C7_absent_entry_completed (cfg : RateLimiterConfig) (env : Env)
    (c : RateLimiterConfig) (m₀ : List (String × Option RateLimiterRateConfig)) (k : String)
    (hct : cfg.CustomTokens = some m₀)
    (hk : mapLookup m₀ k = some none)
    (henv : ∀ p ∈ env, extractTokenId p.1 ≠ some k)
    (hok : setConfiguration (some cfg) env = .ok c) :
    ∃ m tp, c.CustomTokens = some m ∧ c.Token = some tp ∧
      mapLookup m k = some (some tp) ∧ ∀ q ∈ m, q.2 ≠ none := by
  obtain ⟨-, htokc, hctc, -, -, -, -⟩ := setConfiguration_ok_shape hok
  simp only [Option.getD_some] at htokc hctc
  set c3 := configureToken env (configureIP env (resolveDebug env cfg) getDefaultConfiguration)
    getDefaultConfiguration with hc3
  have htok3 : c3.Token ≠ none := by
    rw [hc3]
    exact configureToken_Token_isSome env _
  obtain ⟨tp, htp⟩ := Option.ne_none_iff_exists'.mp htok3
  have hctm : c3.CustomTokens = some m₀ := by
    rw [hc3, configureToken_CustomTokens, configureIP_CustomTokens, resolveDebug_CustomTokens,
      hct]
  have hkL : k ∉ getCustomTokenList env := by
    intro hkL
    obtain ⟨p, hp, he⟩ := (mem_getCustomTokenList env k).mp hkL
    exact henv p hp he
  have hc4 : (configureCustomTokens env c3 getDefaultConfiguration).CustomTokens =
      some ((getCustomTokenList env).foldl
        (fun m t => mapInsert m t (some (customTokenValue env c3.Token t)))
        (completeNilCustomTokens c3.Token m₀)) := by
    rw [configureCustomTokens_spec]
    simp only [hctm, Option.getD_some]
  refine ⟨(getCustomTokenList env).foldl
      (fun m t => mapInsert m t (some (customTokenValue env c3.Token t)))
      (completeNilCustomTokens c3.Token m₀), tp, ?_, ?_, ?_, ?_⟩
  · rw [hctc, hc4]
  · rw [htokc, htp]
  · rw [mapLookup_foldl_insert]
    simp only [hkL, if_false, mapLookup_completeNil, hk, Option.map_some']
    simp [htp]
  · intro q hq
    refine foldl_insert_allSome env c3.Token _ _ ?_ q hq
    refine completeNil_allSome ?_ m₀
    rw [htp]
    simp

/-- The resolved configuration of the C7 witness run. -/
def c7Result : RateLimiterConfig :=
  { IP := some { MaxRequestsPerSecond := 100, BlockTimeMilliseconds := 1000 }
    Token := some { MaxRequestsPerSecond := 200, BlockTimeMilliseconds := 500 }
    CustomTokens := some [("ABC",
      some { MaxRequestsPerSecond := 200, BlockTimeMilliseconds := 500 })]
    StorageAdapter := some .memory
    ResponseWriter := some .defaultWriter
    Debug := false
    DisableEnvs := false }

/-- Witness for C7: the caller entry `ABC ↦ nil` resolves to the
resolved Token policy `{200, 500}` in the empty environment. -/
theorem C7_absent_entry_completed_witness :
    ({ bareConfig with CustomTokens := some [("ABC", none)] } :
        RateLimiterConfig).CustomTokens = some [("ABC", none)] ∧
      mapLookup [("ABC", none)] "ABC" = some none ∧
      (∀ p ∈ ([] : Env), extractTokenId p.1 ≠ some "ABC") ∧
      setConfiguration (some { bareConfig with CustomTokens := some [("ABC", none)] }) [] =
        .ok c7Result ∧
      (∃ m tp, c7Result.CustomTokens = some m ∧ c7Result.Token = some tp ∧
        mapLookup m "ABC" = some (some tp) ∧ ∀ q ∈ m, q.2 ≠ none) :=
  ⟨rfl, rfl, by simp, rfl,
    C7_absent_entry_completed { bareConfig with CustomTokens := some [("ABC", none)] } []
      c7Result [("ABC", none)] "ABC" rfl rfl (by simp) rfl⟩

/-- C4: with `RATE_LIMITER_TOKEN_ABC_MAX_REQUESTS=50` and
`RATE_LIMITER_TOKEN_XYZ_BLOCK_TIME=999` the only token-pattern
variables, `envOverridesDisabled = false` and no caller custom tokens,
the resolved map has exactly the keys `ABC` and `XYZ`; `ABC` is
`{50, resolved-Token-block}` and `XYZ` is `{resolved-Token-max, 999}`
(an identifier present in only one variable form is still discovered,
the missing field falling back to the resolved Token policy). -/
theorem C4_discovery_completeness (cfg : RateLimiterConfig) (env : Env)
    (c : RateLimiterConfig)
    (_hde : cfg.DisableEnvs = false)
    (hct : cfg.CustomTokens = none ∨ cfg.CustomTokens = some [])
    (habc : getEnv env "RATE_LIMITER_TOKEN_ABC_MAX_REQUESTS" = some "50")
    (hxyz : getEnv env "RATE_LIMITER_TOKEN_XYZ_BLOCK_TIME" = some "999")
    (honly : ∀ p ∈ env, extractTokenId p.1 ≠ none →
        p.1 = "RATE_LIMITER_TOKEN_ABC_MAX_REQUESTS" ∨
          p.1 = "RATE_LIMITER_TOKEN_XYZ_BLOCK_TIME")
    (hok : setConfiguration (some cfg) env = .ok c) :
    ∃ m tp, c.CustomTokens = some m ∧ c.Token = some tp ∧
      (∀ kk, (mapLookup m kk).isSome ↔ (kk = "ABC" ∨ kk = "XYZ")) ∧
      mapLookup m "ABC" =
        some (some { MaxRequestsPerSecond := 50
                     BlockTimeMilliseconds := tp.BlockTimeMilliseconds }) ∧
      mapLookup m "XYZ" =
        some (some { MaxRequestsPerSecond := tp.MaxRequestsPerSecond
                     BlockTimeMilliseconds := 999 }) := by
  obtain ⟨-, htokc, hctc, -, -, -, -⟩ := setConfiguration_ok_shape hok
  simp only [Option.getD_some] at htokc hctc
  set c3 := configureToken env (configureIP env (resolveDebug env cfg) getDefaultConfiguration)
    getDefaultConfiguration with hc3
  have htok3 : c3.Token ≠ none := by
    rw [hc3]
    exact configureToken_Token_isSome env _
  obtain ⟨tp, htp⟩ := Option.ne_none_iff_exists'.mp htok3
  have hextABC : extractTokenId "RATE_LIMITER_TOKEN_ABC_MAX_REQUESTS" = some "ABC" := by decide
  have hextXYZ : extractTokenId "RATE_LIMITER_TOKEN_XYZ_BLOCK_TIME" = some "XYZ" := by decide
  have hmem : ∀ kk, kk ∈ getCustomTokenList env ↔ (kk = "ABC" ∨ kk = "XYZ") := by
    intro kk
    rw [mem_getCustomTokenList]
    constructor
    · rintro ⟨p, hp, he⟩
      have hne : extractTokenId p.1 ≠ none := by
        rw [he]
        simp
      rcases honly p hp hne with h1 | h1
      · rw [h1, hextABC] at he
        injection he with he'
        exact Or.inl he'.symm
      · rw [h1, hextXYZ] at he
        injection he with he'
        exact Or.inr he'.symm
    · rintro (h | h)
      · exact ⟨_, mem_of_getEnv_eq_some habc, by rw [h]; exact hextABC⟩
      · exact ⟨_, mem_of_getEnv_eq_some hxyz, by rw [h]; exact hextXYZ⟩
  have hnameB : getEnv env "RATE_LIMITER_TOKEN_ABC_BLOCK_TIME" = none := by
    rw [getEnv_eq_none_iff]
    intro p hp hname
    have hne : extractTokenId p.1 ≠ none := by
      rw [hname]
      decide
    rcases honly p hp hne with h1 | h1 <;> rw [hname] at h1 <;> exact absurd h1 (by decide)
  have hnameM : getEnv env "RATE_LIMITER_TOKEN_XYZ_MAX_REQUESTS" = none := by
    rw [getEnv_eq_none_iff]
    intro p hp hname
    have hne : extractTokenId p.1 ≠ none := by
      rw [hname]
      decide
    rcases honly p hp hne with h1 | h1 <;> rw [hname] at h1 <;> exact absurd h1 (by decide)
  have habc50 : getInt64Env env "RATE_LIMITER_TOKEN_ABC_MAX_REQUESTS" = some 50 := by
    unfold getInt64Env
    rw [habc]
    rfl
  have hxyz999 : getInt64Env env "RATE_LIMITER_TOKEN_XYZ_BLOCK_TIME" = some 999 := by
    unfold getInt64Env
    rw [hxyz]
    rfl
  have habcB : getInt64Env env "RATE_LIMITER_TOKEN_ABC_BLOCK_TIME" = none := by
    unfold getInt64Env
    rw [hnameB]
    rfl
  have hxyzM : getInt64Env env "RATE_LIMITER_TOKEN_XYZ_MAX_REQUESTS" = none := by
    unfold getInt64Env
    rw [hnameM]
    rfl
  have hVabc : customTokenValue env c3.Token "ABC" =
      { MaxRequestsPerSecond := 50, BlockTimeMilliseconds := tp.BlockTimeMilliseconds } := by
    unfold customTokenValue
    rw [htp]
    have h1 : ("RATE_LIMITER_TOKEN_" ++ "ABC" ++ "_MAX_REQUESTS" : String) =
        "RATE_LIMITER_TOKEN_ABC_MAX_REQUESTS" := rfl
    have h2 : ("RATE_LIMITER_TOKEN_" ++ "ABC" ++ "_BLOCK_TIME" : String) =
        "RATE_LIMITER_TOKEN_ABC_BLOCK_TIME" := rfl
    rw [h1, h2, habc50, habcB]
    rfl
  have hVxyz : customTokenValue env c3.Token "XYZ" =
      { MaxRequestsPerSecond := tp.MaxRequestsPerSecond, BlockTimeMilliseconds := 999 } := by
    unfold customTokenValue
    rw [htp]
    have h1 : ("RATE_LIMITER_TOKEN_" ++ "XYZ" ++ "_MAX_REQUESTS" : String) =
        "RATE_LIMITER_TOKEN_XYZ_MAX_REQUESTS" := rfl
    have h2 : ("RATE_LIMITER_TOKEN_" ++ "XYZ" ++ "_BLOCK_TIME" : String) =
        "RATE_LIMITER_TOKEN_XYZ_BLOCK_TIME" := rfl
    rw [h1, h2, hxyzM, hxyz999]
    rfl
  have hctm : c3.CustomTokens = none ∨ c3.CustomTokens = some [] := by
    rw [hc3, configureToken_CustomTokens, configureIP_CustomTokens, resolveDebug_CustomTokens]
    exact hct
  have hbase : completeNilCustomTokens c3.Token (c3.CustomTokens.getD []) = [] := by
    rcases hctm with h | h <;> rw [h] <;> rfl
  have hc4 : (configureCustomTokens env c3 getDefaultConfiguration).CustomTokens =
      some ((getCustomTokenList env).foldl
        (fun m t => mapInsert m t (some (customTokenValue env c3.Token t))) []) := by
    simp only [configureCustomTokens_spec]
    rw [hbase]
  refine ⟨(getCustomTokenList env).foldl
      (fun m t => mapInsert m t (some (customTokenValue env c3.Token t))) [], tp,
    ?_, ?_, ?_, ?_, ?_⟩
  · rw [hctc, hc4]
  · rw [htokc, htp]
  · intro kk
    rw [mapLookup_foldl_insert, ← hmem kk]
    by_cases hkk : kk ∈ getCustomTokenList env <;> simp [hkk, mapLookup]
  · rw [mapLookup_foldl_insert, if_pos ((hmem "ABC").mpr (Or.inl rfl)), hVabc]
  · rw [mapLookup_foldl_insert, if_pos ((hmem "XYZ").mpr (Or.inr rfl)), hVxyz]

/-- The resolved configuration of the C4 witness run. -/
def c4Result : RateLimiterConfig :=
  { IP := some { MaxRequestsPerSecond := 100, BlockTimeMilliseconds := 1000 }
    Token := some { MaxRequestsPerSecond := 200, BlockTimeMilliseconds := 500 }
    CustomTokens := some
      [("ABC", some { MaxRequestsPerSecond := 50, BlockTimeMilliseconds := 500 }),
       ("XYZ", some { MaxRequestsPerSecond := 200, BlockTimeMilliseconds := 999 })]
    StorageAdapter := some .memory
    ResponseWriter := some .defaultWriter
    Debug := false
    DisableEnvs := false }

/-- The environment of the C4 witness run. -/
def c4Env : Env :=
  [("RATE_LIMITER_TOKEN_ABC_MAX_REQUESTS", "50"),
   ("RATE_LIMITER_TOKEN_XYZ_BLOCK_TIME", "999")]

/-- Witness for C4 at the concrete two-variable environment. -/
theorem C4_discovery_completeness_witness :
    bareConfig.DisableEnvs = false ∧
      (bareConfig.CustomTokens = none ∨ bareConfig.CustomTokens = some []) ∧
      getEnv c4Env "RATE_LIMITER_TOKEN_ABC_MAX_REQUESTS" = some "50" ∧
      getEnv c4Env "RATE_LIMITER_TOKEN_XYZ_BLOCK_TIME" = some "999" ∧
      (∀ p ∈ c4Env, extractTokenId p.1 ≠ none →
        p.1 = "RATE_LIMITER_TOKEN_ABC_MAX_REQUESTS" ∨
          p.1 = "RATE_LIMITER_TOKEN_XYZ_BLOCK_TIME") ∧
      setConfiguration (some bareConfig) c4Env = .ok c4Result ∧
      (∃ m tp, c4Result.CustomTokens = some m ∧ c4Result.Token = some tp ∧
        (∀ kk, (mapLookup m kk).isSome ↔ (kk = "ABC" ∨ kk = "XYZ")) ∧
        mapLookup m "ABC" =
          some (some { MaxRequestsPerSecond := 50
                       BlockTimeMilliseconds := tp.BlockTimeMilliseconds }) ∧
        mapLookup m "XYZ" =
          some (some { MaxRequestsPerSecond := tp.MaxRequestsPerSecond
                       BlockTimeMilliseconds := 999 })) :=
  ⟨rfl, Or.inl rfl, rfl, rfl, by decide, rfl,
    C4_discovery_completeness bareConfig c4Env c4Result rfl (Or.inl rfl) rfl rfl (by decide) rfl⟩

/-- C9: resolution is idempotent — feeding a resolution result back into
`setConfiguration` under the same environment snapshot succeeds and
leaves the IP, Token, custom-token and debug fields (the configured
values) unchanged. -/
theorem C9_resolution_idempotent (co : Option RateLimiterConfig) (env : Env)
    (c1 : RateLimiterConfig) (hok : setConfiguration co env = .ok c1) :
    ∃ c2, setConfiguration (some c1) env = .ok c2 ∧
      c2.IP = c1.IP ∧ c2.Token = c1.Token ∧ c2.CustomTokens = c1.CustomTokens ∧
      c2.Debug = c1.Debug := by
  obtain ⟨h1, h2, h3, h4, h5, -, -⟩ := setConfiguration_ok_shape hok
  obtain ⟨c5, hsa, -⟩ := setConfiguration_ok_inversion hok
  set cfg0 := co.getD getDefaultConfiguration with hcfg0
  set cd := resolveDebug env cfg0 with hcd
  set c2s := configureIP env cd getDefaultConfiguration with hc2s
  set c3s := configureToken env c2s getDefaultConfiguration with hc3s
  have hAfix : resolveDebug env c1 = c1 := by
    have hX : (resolveDebug env c1).Debug = c1.Debug := by
      rw [resolveDebug_Debug]
      by_cases hde : c1.DisableEnvs
      · rw [if_pos hde]
      · rw [if_neg hde]
        have hde0 : ¬cfg0.DisableEnvs := by
          rw [← h5]
          exact hde
        cases hgb : getBoolEnv env envKeyDebug with
        | some b =>
          show b = c1.Debug
          rw [h4, hcd, resolveDebug_Debug, if_neg hde0, hgb]
        | none => rfl
    calc resolveDebug env c1 = { c1 with Debug := (resolveDebug env c1).Debug } := rfl
      _ = { c1 with Debug := c1.Debug } := by rw [hX]
      _ = c1 := rfl
  set c2p := configureIP env c1 getDefaultConfiguration with hc2p
  set c3p := configureToken env c2p getDefaultConfiguration with hc3p
  set c4p := configureCustomTokens env c3p getDefaultConfiguration with hc4p
  have hdeCd : c1.DisableEnvs = cd.DisableEnvs := by
    rw [hcd, resolveDebug_DisableEnvs]
    exact h5
  have hIP2 : c2p.IP = c1.IP := by
    rw [hc2p]
    refine configureIP_fix env c1 cd ?_ hdeCd
    rw [← hc2s]
    exact h1
  have hTok3 : c3p.Token = c1.Token := by
    have ht : c2p.Token = (configureToken env c2s getDefaultConfiguration).Token := by
      rw [hc2p, configureIP_Token, ← hc3s]
      exact h2
    have hde2 : c2p.DisableEnvs = c2s.DisableEnvs := by
      rw [hc2p, configureIP_DisableEnvs, hc2s, configureIP_DisableEnvs, hcd,
        resolveDebug_DisableEnvs, h5]
    rw [hc3p, configureToken_fix env c2p c2s ht hde2, hc2p, configureIP_Token]
  have hCT4 : c4p.CustomTokens = c1.CustomTokens := by
    have htok : c3p.Token = c3s.Token := by
      rw [hTok3]
      exact h2
    have hct : c3p.CustomTokens =
        (configureCustomTokens env c3s getDefaultConfiguration).CustomTokens := by
      rw [hc3p, configureToken_CustomTokens, hc2p, configureIP_CustomTokens]
      exact h3
    have htokS : c3p.Token ≠ none := by
      rw [hTok3, h2, hc3s]
      exact configureToken_Token_isSome env _
    rw [hc4p, configureCustomTokens_fix env c3p c3s htok hct htokS, hc3p,
      configureToken_CustomTokens, hc2p, configureIP_CustomTokens]
  have hDbg4 : c4p.Debug = c1.Debug := by
    rw [hc4p, configureCustomTokens_Debug, hc3p, configureToken_Debug, hc2p, configureIP_Debug]
  have hsecond : ∃ c5p, configureStorageAdapter env c4p getDefaultConfiguration = .ok c5p := by
    by_cases hb : getBoolEnv env envUseRedis = some true
    · cases ha : getEnv env envRedisAddress with
      | none =>
        rw [configureStorageAdapter_redis_missing _ _ hb ha] at hsa
        exact absurd hsa (by simp)
      | some a => exact ⟨_, configureStorageAdapter_redis_ok _ _ hb ha⟩
    · exact ⟨_, configureStorageAdapter_not_redis _ _ hb⟩
  obtain ⟨c5p, hsap⟩ := hsecond
  obtain ⟨hip5, htok5, hct5, hdbg5, -, -⟩ := configureStorageAdapter_ok_fields hsap
  refine ⟨configureResponseWriter c5p getDefaultConfiguration, ?_, ?_, ?_, ?_, ?_⟩
  · simp only [setConfiguration, Option.getD_some]
    rw [hAfix, ← hc2p, ← hc3p, ← hc4p, hsap]
  · rw [configureResponseWriter_IP, hip5, hc4p, configureCustomTokens_IP, hc3p,
      configureToken_IP]
    exact hIP2
  · rw [configureResponseWriter_Token, htok5, hc4p, configureCustomTokens_Token]
    exact hTok3
  · rw [configureResponseWriter_CustomTokens, hct5]
    exact hCT4
  · rw [configureResponseWriter_Debug, hdbg5]
    exact hDbg4

/-- Witness for C9: resolving the default resolution again in the empty
environment returns a configuration with the same configured values. -/
theorem C9_resolution_idempotent_witness :
    setConfiguration none [] = .ok getDefaultConfiguration ∧
      (∃ c2, setConfiguration (some getDefaultConfiguration) [] = .ok c2 ∧
        c2.IP = getDefaultConfiguration.IP ∧ c2.Token = getDefaultConfiguration.Token ∧
        c2.CustomTokens = getDefaultConfiguration.CustomTokens ∧
        c2.Debug = getDefaultConfiguration.Debug) :=
  ⟨rfl, C9_resolution_idempotent none [] getDefaultConfiguration rfl⟩

end RateLimiter
